import Mathlib

/-!
Shallow embedding of the notebook `NetCDF to Hyper.ipynb`.

The notebook reads a gridded NetCDF file, walks the 2-D grid for a range of
time-step indices, builds two in-memory record lists (`data` for measurement
rows, `data_geom` for geometry rows), and bulk-inserts them into a `.hyper`
database with two tables `Data.Data` and `Geom.Geom`.

The numeric payloads (latitude, longitude, time, measurement value) are never
interpreted by the notebook's own logic — they are copied from the input
arrays into output rows unchanged — so the embedding is parametric in the
value type `V`.  The per-cell validity mask is a boolean, exactly as the
notebook tests `nc.variables['SMI'][i].mask[y][x] == False`.
-/

/-- The data exposed by the opened NetCDF dataset (cell-7/cell-11 of the
notebook): dimension sizes `northing`/`easting` and the variable accessors
`time`, `lat`, `lon`, `SMI` together with the validity mask of `SMI`.
`mask i y x` is the mask bit at time-step `i`, row `y`, column `x`. -/
structure Grid (V : Type) where
  y_size : Nat
  x_size : Nat
  time : Nat → V
  lat : Nat → Nat → V
  lon : Nat → Nat → V
  smi : Nat → Nat → Nat → V
  mask : Nat → Nat → Nat → Bool

/-- One entry of the notebook's `data_geom` list: `[f'{y}-{x}', lat, lon]`. -/
structure GeomRecord (V : Type) where
  id : String
  latitude : V
  longitude : V
deriving DecidableEq

/-- One entry of the notebook's `data` list: `[f'{y}-{x}', time, value]`. -/
structure MeasurementRecord (V : Type) where
  id : String
  time : V
  value : V
deriving DecidableEq

/-- The cell identifier `f'{y}-{x}'` built in cell-14 of the notebook. -/
def combine (y x : Nat) : String :=
  toString y ++ "-" ++ toString x

/-- The two accumulator lists set up in cell-12 of the notebook. -/
structure ExtractState (V : Type) where
  data : List (MeasurementRecord V)
  data_geom : List (GeomRecord V)

/-- Geometry contribution of one loop-body execution: appended only while
`i == 0` (cell-14: “we only need to do this once”). -/
def geomCell (g : Grid V) (i x y : Nat) : List (GeomRecord V) :=
  if i = 0 then [⟨combine y x, g.lat y x, g.lon y x⟩] else []

/-- Measurement contribution of one loop-body execution: appended only when
the mask is `False` (cell-14: “don't bother with the masked values”). -/
def dataCell (g : Grid V) (i x y : Nat) : List (MeasurementRecord V) :=
  if g.mask i y x = false then [⟨combine y x, g.time i, g.smi i y x⟩] else []

/-- The body of the innermost loop of cell-14: first the conditional
`data_geom.append`, then the mask-guarded `data.append`. -/
def cellStep (g : Grid V) (i x y : Nat) (s : ExtractState V) : ExtractState V :=
  let s1 :=
    if i = 0 then
      { s with data_geom := s.data_geom ++ [⟨combine y x, g.lat y x, g.lon y x⟩] }
    else s
  if g.mask i y x = false then
    { s1 with data := s1.data ++ [⟨combine y x, g.time i, g.smi i y x⟩] }
  else s1

/-- The triple-nested loop of cell-14: `for i in range(0, nSel)`, then
`for x in range(0, x_size)`, then `for y in range(0, y_size)`, starting from
the two empty lists of cell-12.  The notebook hard-codes `nSel = 1` and its
comment says to use `len(times)` to process every time-step, so the end of
the range is the parameter here. -/
def extract (g : Grid V) (nSel : Nat) : ExtractState V :=
  (List.range nSel).foldl
    (fun s i =>
      (List.range g.x_size).foldl
        (fun s x =>
          (List.range g.y_size).foldl (fun s y => cellStep g i x y s) s)
        s)
    ⟨[], []⟩

/-- The measurement list of the loop, written as a flat list comprehension in
the iteration order of cell-14. -/
def dataList (g : Grid V) (nSel : Nat) : List (MeasurementRecord V) :=
  (List.range nSel).flatMap fun i =>
    (List.range g.x_size).flatMap fun x =>
      (List.range g.y_size).flatMap fun y => dataCell g i x y

/-- The geometry list of the loop, written as a flat list comprehension in
the iteration order of cell-14. -/
def geomList (g : Grid V) (nSel : Nat) : List (GeomRecord V) :=
  (List.range nSel).flatMap fun i =>
    (List.range g.x_size).flatMap fun x =>
      (List.range g.y_size).flatMap fun y => geomCell g i x y

/-- One geometry record per grid cell, in the iteration order of cell-14
(`x` outer, `y` inner). -/
def geomAll (g : Grid V) : List (GeomRecord V) :=
  (List.range g.x_size).flatMap fun x =>
    (List.range g.y_size).map fun y => ⟨combine y x, g.lat y x, g.lon y x⟩

/-- Column types used by cell-16 (`SqlType.text()` and `SqlType.double()`). -/
inductive SqlType
  | text
  | double
deriving DecidableEq

/-- One `TableDefinition.Column` of cell-16. -/
structure Column where
  name : String
  type : SqlType
deriving DecidableEq

/-- A `TableDefinition` of cell-16: a `TableName(schema, name)` pair plus the
column list. -/
structure TableDefinition where
  table_name : String × String
  columns : List Column
deriving DecidableEq

/-- A value stored in a `.hyper` cell: a text or a double. -/
inductive HyperValue (V : Type)
  | text (s : String)
  | double (v : V)
deriving DecidableEq

/-- One table of the output database: its definition and its inserted rows. -/
structure Table (V : Type) where
  definition : TableDefinition
  rows : List (List (HyperValue V))

/-- The output `.hyper` database: the created schemas and tables. -/
structure HyperDatabase (V : Type) where
  schemas : List String
  tables : List (Table V)

/-- `schema_data` of cell-16: `Data.Data(ID: text, Time: double, Value: double)`. -/
def schema_data : TableDefinition :=
  ⟨("Data", "Data"), [⟨"ID", SqlType.text⟩, ⟨"Time", SqlType.double⟩, ⟨"Value", SqlType.double⟩]⟩

/-- `schema_geom` of cell-16: `Geom.Geom(ID: text, Latitude: double, Longitude: double)`. -/
def schema_geom : TableDefinition :=
  ⟨("Geom", "Geom"), [⟨"ID", SqlType.text⟩, ⟨"Latitude", SqlType.double⟩, ⟨"Longitude", SqlType.double⟩]⟩

/-- The row inserted for one measurement record `[id, time, value]`. -/
def measRow (r : MeasurementRecord V) : List (HyperValue V) :=
  [HyperValue.text r.id, HyperValue.double r.time, HyperValue.double r.value]

/-- The row inserted for one geometry record `[id, lat, lon]`. -/
def geomRow (r : GeomRecord V) : List (HyperValue V) :=
  [HyperValue.text r.id, HyperValue.double r.latitude, HyperValue.double r.longitude]

/-- The table-writer stage of cell-16.  Modelled from the spec: the Tableau
Hyper API itself is a third-party library, so its documented effects are
embedded as the database value the calls construct — create the two schemas
`Data` and `Geom`, create the two tables from `schema_data` and
`schema_geom`, and bulk-insert `data` rows into `Data.Data` and `data_geom`
rows into `Geom.Geom`, in the order of the calls in cell-16. -/
def writeHyper (data : List (MeasurementRecord V)) (data_geom : List (GeomRecord V)) :
    HyperDatabase V :=
  { schemas := ["Data", "Geom"],
    tables := [⟨schema_data, data.map measRow⟩, ⟨schema_geom, data_geom.map geomRow⟩] }

/-- The error taxonomy of the run: the read stage or the write stage fails. -/
inductive PipelineError
  | fileFormatError
  | writeError
deriving DecidableEq

/-- Outcome of the `netCDF4.Dataset` open in cell-7.  Modelled from the spec:
the reader is a third-party library; it either yields the grid data or fails
with a `FileFormatError` (for instance when the `northing` dimension is
missing), and a failure aborts the run. -/
inductive ReadResult (V : Type)
  | ok (g : Grid V)
  | err

/-- The whole notebook run, threaded over the state of the output file.
`prevOutput` is the content of a pre-existing file at the output path, if
any.  Modelled from the spec where third-party behaviour is involved: a read
failure in cell-7 aborts before cell-16 ever opens the output, leaving the
destination unchanged, and `CreateMode.CREATE_AND_REPLACE` in cell-16 fully
replaces any existing destination with the freshly written database. -/
def runPipeline (input : ReadResult V) (nSel : Nat) (prevOutput : Option (HyperDatabase V)) :
    Except PipelineError (HyperDatabase V) × Option (HyperDatabase V) :=
  match input with
  | ReadResult.err => (Except.error PipelineError.fileFormatError, prevOutput)
  | ReadResult.ok g =>
      let s := extract g nSel
      let db := writeHyper s.data s.data_geom
      (Except.ok db, some db)

/-- The Python slice `s[:-k]`: the first `length - k` characters (empty when
the string has at most `k` characters). -/
def pySliceDropLast (s : String) (k : Nat) : String :=
  ⟨s.data.take (s.data.length - k)⟩

/-- Cell-5 of the notebook: `OUTPUT_HYPER = INPUT_NETCDF[:-3] + '.hyper'`. -/
def outputHyperPath (inputPath : String) : String :=
  pySliceDropLast inputPath 3 ++ ".hyper"

/-- The 2×2 scenario grid: one time-step with value 100, distinct lat/lon
values, `SMI` at that step `[[1.0, masked], [2.0, 3.0]]` (row `y`, column
`x`), and the mask set exactly at cell `(0, 1)`. -/
def g6 : Grid ℚ where
  y_size := 2
  x_size := 2
  time := fun _ => 100
  lat := fun y x => if y = 0 then (if x = 0 then 51 else 52) else (if x = 0 then 53 else 54)
  lon := fun y x => if y = 0 then (if x = 0 then 9 else 10) else (if x = 0 then 11 else 12)
  smi := fun _ y x => if y = 0 then (if x = 0 then 1 else 0) else (if x = 0 then 2 else 3)
  mask := fun _ y x => y == 0 && x == 1

/-- A 1×1 grid whose single cell is masked at time-step 0 and unmasked at
every later time-step, while the `time` variable carries the same value 100
at every index. -/
def gC1 : Grid ℚ where
  y_size := 1
  x_size := 1
  time := fun _ => 100
  lat := fun _ _ => 0
  lon := fun _ _ => 0
  smi := fun _ _ _ => 1
  mask := fun i _ _ => i == 0

lemma foldl_step_append (df : Nat → List (MeasurementRecord V))
    (gf : Nat → List (GeomRecord V)) (h : ExtractState V → Nat → ExtractState V)
    (hh : ∀ s i, h s i = ⟨s.data ++ df i, s.data_geom ++ gf i⟩) :
    ∀ (l : List Nat) (s : ExtractState V),
      l.foldl h s = ⟨s.data ++ l.flatMap df, s.data_geom ++ l.flatMap gf⟩ := by
  intro l
  induction l with
  | nil => intro s; simp
  | cons a t ih =>
    intro s
    rw [List.foldl_cons, hh, ih]
    simp

lemma cellStep_eq (g : Grid V) (i x y : Nat) (s : ExtractState V) :
    cellStep g i x y s = ⟨s.data ++ dataCell g i x y, s.data_geom ++ geomCell g i x y⟩ := by
  unfold cellStep dataCell geomCell
  by_cases h0 : i = 0
  · subst h0
    by_cases hm : g.mask 0 y x = false <;> simp [hm]
  · by_cases hm : g.mask i y x = false <;> simp [h0, hm]

lemma extract_eq (g : Grid V) (n : Nat) :
    extract g n = ⟨dataList g n, geomList g n⟩ := by
  have h1 : ∀ i x (s : ExtractState V),
      (List.range g.y_size).foldl (fun s y => cellStep g i x y s) s
        = ⟨s.data ++ (List.range g.y_size).flatMap (fun y => dataCell g i x y),
           s.data_geom ++ (List.range g.y_size).flatMap (fun y => geomCell g i x y)⟩ := by
    intro i x s
    exact foldl_step_append _ _ _ (fun s y => cellStep_eq g i x y s) _ s
  have h2 : ∀ i (s : ExtractState V),
      (List.range g.x_size).foldl
        (fun s x => (List.range g.y_size).foldl (fun s y => cellStep g i x y s) s) s
        = ⟨s.data ++ (List.range g.x_size).flatMap
              (fun x => (List.range g.y_size).flatMap (fun y => dataCell g i x y)),
           s.data_geom ++ (List.range g.x_size).flatMap
              (fun x => (List.range g.y_size).flatMap (fun y => geomCell g i x y))⟩ := by
    intro i s
    exact foldl_step_append _ _ _ (fun s x => h1 i x s) _ s
  have h3 := foldl_step_append _ _ _ (fun s i => h2 i s) (List.range n)
    (⟨[], []⟩ : ExtractState V)
  simpa [extract, dataList, geomList] using h3

lemma extract_data (g : Grid V) (n : Nat) : (extract g n).data = dataList g n := by
  rw [extract_eq]

lemma extract_geom (g : Grid V) (n : Nat) : (extract g n).data_geom = geomList g n := by
  rw [extract_eq]

lemma mem_dataCell (g : Grid V) (i x y : Nat) (r : MeasurementRecord V) :
    r ∈ dataCell g i x y ↔
      g.mask i y x = false ∧ r = ⟨combine y x, g.time i, g.smi i y x⟩ := by
  unfold dataCell
  by_cases hm : g.mask i y x = false <;> simp [hm]

lemma mem_dataList (g : Grid V) (n : Nat) (r : MeasurementRecord V) :
    r ∈ dataList g n ↔
      ∃ i < n, ∃ x < g.x_size, ∃ y < g.y_size,
        g.mask i y x = false ∧ r = ⟨combine y x, g.time i, g.smi i y x⟩ := by
  simp [dataList, List.mem_flatMap, List.mem_range, mem_dataCell]

lemma toDigitsCore_fuel (f f' n : Nat) (ds : List Char) (h : n < f) (h' : n < f') :
    Nat.toDigitsCore 10 f n ds = Nat.toDigitsCore 10 f' n ds := by
  induction f generalizing f' n ds with
  | zero => omega
  | succ f ih =>
    cases f' with
    | zero => omega
    | succ f' =>
      simp only [Nat.toDigitsCore]
      by_cases h0 : n / 10 = 0
      · simp [h0]
      · have h10 : 10 ≤ n := by omega
        have hlt : n / 10 < n := Nat.div_lt_self (by omega) (by norm_num)
        simp only [h0, if_neg]
        exact ih f' (n / 10) _ (by omega) (by omega)

lemma toDigitsCore_append (f n : Nat) (ds : List Char) :
    Nat.toDigitsCore 10 f n ds = Nat.toDigitsCore 10 f n [] ++ ds := by
  induction f generalizing n ds with
  | zero => simp [Nat.toDigitsCore]
  | succ f ih =>
    simp only [Nat.toDigitsCore]
    by_cases h0 : n / 10 = 0
    · simp [h0]
    · simp only [h0, if_neg]
      rw [ih (n / 10) [Nat.digitChar (n % 10)], ih (n / 10) (Nat.digitChar (n % 10) :: ds)]
      simp

lemma toDigits10_eq (n : Nat) :
    Nat.toDigits 10 n
      = (if n < 10 then [] else Nat.toDigits 10 (n / 10)) ++ [Nat.digitChar (n % 10)] := by
  by_cases h0 : n / 10 = 0
  · have hn : n < 10 := by omega
    unfold Nat.toDigits
    simp only [Nat.toDigitsCore]
    simp [h0, hn]
  · have h10 : 10 ≤ n := by omega
    have hstep : Nat.toDigits 10 n
        = Nat.toDigitsCore 10 n (n / 10) [Nat.digitChar (n % 10)] := by
      unfold Nat.toDigits
      simp only [Nat.toDigitsCore]
      simp [h0]
    rw [hstep, toDigitsCore_append, if_neg (by omega)]
    congr 1
    unfold Nat.toDigits
    exact toDigitsCore_fuel n (n / 10 + 1) (n / 10) []
      (Nat.div_lt_self (by omega) (by norm_num)) (Nat.lt_succ_self _)

lemma digitChar_ne_dash (n : Nat) : Nat.digitChar (n % 10) ≠ '-' := by
  have h : n % 10 < 10 := Nat.mod_lt _ (by norm_num)
  have hall : ∀ m : Fin 10, Nat.digitChar m.val ≠ '-' := by decide
  exact hall ⟨n % 10, h⟩

lemma dash_not_mem_toDigits (n : Nat) : '-' ∉ Nat.toDigits 10 n := by
  induction n using Nat.strong_induction_on with
  | _ n ih =>
    rw [toDigits10_eq n]
    intro hmem
    rcases List.mem_append.mp hmem with hl | hr
    · by_cases hn : n < 10
      · rw [if_pos hn] at hl
        cases hl
      · rw [if_neg hn] at hl
        exact ih (n / 10) (Nat.div_lt_self (by omega) (by norm_num)) hl
    · have : '-' = Nat.digitChar (n % 10) := List.mem_singleton.mp hr
      exact digitChar_ne_dash n this.symm

lemma toDigits10_ne_nil (n : Nat) : Nat.toDigits 10 n ≠ [] := by
  rw [toDigits10_eq n]
  simp

lemma toDigits10_injective (n : Nat) :
    ∀ m : Nat, Nat.toDigits 10 n = Nat.toDigits 10 m → n = m := by
  induction n using Nat.strong_induction_on with
  | _ n ih =>
    intro m h
    rw [toDigits10_eq n, toDigits10_eq m] at h
    obtain ⟨h1, h2⟩ := List.append_inj' h rfl
    have hdig : n % 10 = m % 10 := by
      have hdc : Nat.digitChar (n % 10) = Nat.digitChar (m % 10) :=
        List.singleton_injective h2
      have hall : ∀ a b : Fin 10, Nat.digitChar a.val = Nat.digitChar b.val → a = b := by decide
      have hn : n % 10 < 10 := Nat.mod_lt _ (by norm_num)
      have hm : m % 10 < 10 := Nat.mod_lt _ (by norm_num)
      have := hall ⟨n % 10, hn⟩ ⟨m % 10, hm⟩ hdc
      exact congrArg Fin.val this
    by_cases hn10 : n < 10
    · by_cases hm10 : m < 10
      · omega
      · rw [if_pos hn10, if_neg hm10] at h1
        exact absurd h1.symm (toDigits10_ne_nil (m / 10))
    · by_cases hm10 : m < 10
      · rw [if_neg hn10, if_pos hm10] at h1
        exact absurd h1 (toDigits10_ne_nil (n / 10))
      · rw [if_neg hn10, if_neg hm10] at h1
        have hdiv : n / 10 = m / 10 :=
          ih (n / 10) (Nat.div_lt_self (by omega) (by norm_num)) (m / 10) h1
        omega

lemma repr_data (n : Nat) : (Nat.repr n).data = Nat.toDigits 10 n := rfl

lemma combine_data (y x : Nat) :
    (combine y x).data = Nat.toDigits 10 y ++ '-' :: Nat.toDigits 10 x := by
  have hdash : ("-" : String).data = ['-'] := rfl
  have h1 : toString y = Nat.repr y := rfl
  have h2 : toString x = Nat.repr x := rfl
  simp [combine, String.data_append, h1, h2, repr_data, hdash]

lemma append_dash_inj :
    ∀ (as cs bs ds : List Char), '-' ∉ as → '-' ∉ cs →
      as ++ '-' :: bs = cs ++ '-' :: ds → as = cs ∧ bs = ds := by
  intro as
  induction as with
  | nil =>
    intro cs bs ds _ hcs h
    cases cs with
    | nil => simpa using h
    | cons c cs' =>
      simp only [List.nil_append, List.cons_append, List.cons.injEq] at h
      exact absurd (h.1 ▸ List.mem_cons_self c cs') hcs
  | cons a as' ih =>
    intro cs bs ds has hcs h
    cases cs with
    | nil =>
      simp only [List.cons_append, List.nil_append, List.cons.injEq] at h
      exact absurd (h.1 ▸ List.mem_cons_self a as') has
    | cons c cs' =>
      simp only [List.cons_append, List.cons.injEq] at h
      have hmem1 : '-' ∉ as' := fun hx => has (List.mem_cons_of_mem a hx)
      have hmem2 : '-' ∉ cs' := fun hx => hcs (List.mem_cons_of_mem c hx)
      obtain ⟨he, ht⟩ := ih cs' bs ds hmem1 hmem2 h.2
      exact ⟨by rw [h.1, he], ht⟩

lemma combine_inj {y1 x1 y2 x2 : Nat} (h : combine y1 x1 = combine y2 x2) :
    y1 = y2 ∧ x1 = x2 := by
  have hd := congrArg String.data h
  rw [combine_data, combine_data] at hd
  obtain ⟨h1, h2⟩ :=
    append_dash_inj _ _ _ _ (dash_not_mem_toDigits y1) (dash_not_mem_toDigits y2) hd
  exact ⟨toDigits10_injective y1 y2 h1, toDigits10_injective x1 x2 h2⟩

lemma flatMap_singleton_eq_map {α β : Type} (f : α → β) (l : List α) :
    (l.flatMap fun a => [f a]) = l.map f := by
  induction l with
  | nil => rfl
  | cons a t ih => simp [ih]

lemma geomList_one (g : Grid V) : geomList g 1 = geomAll g := by
  have h : ∀ x : Nat,
      ((List.range g.y_size).flatMap fun y => geomCell g 0 x y)
        = (List.range g.y_size).map fun y =>
            (⟨combine y x, g.lat y x, g.lon y x⟩ : GeomRecord V) := by
    intro x
    rw [show (fun y => geomCell g 0 x y)
        = fun y => [(⟨combine y x, g.lat y x, g.lon y x⟩ : GeomRecord V)] from ?_]
    · exact flatMap_singleton_eq_map _ _
    · funext y
      simp [geomCell]
  have hr1 : List.range 1 = [0] := rfl
  simp [geomList, geomAll, hr1, h]

lemma geomList_succ_of_pos (g : Grid V) (n : Nat) (hn : 1 ≤ n) :
    geomList g (n + 1) = geomList g n := by
  unfold geomList
  rw [List.range_succ, List.flatMap_append]
  have h : ((List.range g.x_size).flatMap fun x =>
      (List.range g.y_size).flatMap fun y => geomCell g n x y) = [] := by
    have hcell : ∀ x y : Nat, geomCell g n x y = ([] : List (GeomRecord V)) := by
      intro x y
      have hn0 : ¬ n = 0 := by omega
      simp [geomCell, hn0]
    simp [hcell]
  simp [h]

lemma geomList_of_pos (g : Grid V) (n : Nat) (hn : 1 ≤ n) : geomList g n = geomAll g := by
  induction n with
  | zero => omega
  | succ m ih =>
    by_cases hm : 1 ≤ m
    · rw [geomList_succ_of_pos g m hm, ih hm]
    · have : m = 0 := by omega
      subst this
      exact geomList_one g

lemma geomAll_length (g : Grid V) : (geomAll g).length = g.y_size * g.x_size := by
  rw [geomAll, List.length_flatMap]
  simp only [Function.comp_def, List.length_map, List.length_range]
  rw [List.map_const', List.sum_replicate, List.length_range, smul_eq_mul, Nat.mul_comm]

lemma mem_geomAll (g : Grid V) (y x : Nat) (hy : y < g.y_size) (hx : x < g.x_size) :
    (⟨combine y x, g.lat y x, g.lon y x⟩ : GeomRecord V) ∈ geomAll g := by
  rw [geomAll, List.mem_flatMap]
  exact ⟨x, List.mem_range.mpr hx, List.mem_map.mpr ⟨y, List.mem_range.mpr hy, rfl⟩⟩

lemma geomAll_ids (g : Grid V) :
    (geomAll g).map (fun r => r.id)
      = (List.range g.x_size).flatMap fun x => (List.range g.y_size).map fun y => combine y x := by
  simp [geomAll, List.map_flatMap, List.map_map]
  rfl

lemma geomAll_ids_nodup (g : Grid V) : ((geomAll g).map (fun r => r.id)).Nodup := by
  rw [geomAll_ids]
  have hprod : ((List.range g.x_size) ×ˢ (List.range g.y_size)).map
      (fun p : Nat × Nat => combine p.2 p.1)
      = (List.range g.x_size).flatMap fun x => (List.range g.y_size).map fun y => combine y x := by
    show ((List.range g.x_size).flatMap fun a =>
        (List.range g.y_size).map fun b => (a, b)).map (fun p : Nat × Nat => combine p.2 p.1) = _
    rw [List.map_flatMap]
    simp [List.map_map, Function.comp_def]
  rw [← hprod]
  apply List.Nodup.map
  · intro p q hpq
    obtain ⟨h1, h2⟩ := combine_inj hpq
    exact Prod.ext h2 h1
  · exact List.Nodup.product (List.nodup_range _) (List.nodup_range _)

lemma length_filter_eq_of_nodup {α : Type} [DecidableEq α] {L : List α} {c : α}
    (hN : L.Nodup) (hc : c ∈ L) : (L.filter (fun b => b = c)).length = 1 := by
  induction L with
  | nil => cases hc
  | cons a t ih =>
    rw [List.nodup_cons] at hN
    rcases List.mem_cons.mp hc with hac | hct
    · rw [List.filter_cons_of_pos (by simp [hac])]
      have hnil : t.filter (fun b => b = c) = [] := by
        rw [List.filter_eq_nil_iff]
        intro b hb
        simp only [decide_eq_true_eq]
        intro hbc
        apply hN.1
        rw [hbc, hac] at hb
        exact hb
      rw [hnil]
      rfl
    · have hca : ¬(a = c) := fun h => hN.1 (by rw [h]; exact hct)
      rw [List.filter_cons_of_neg (by simpa using hca)]
      exact ih hN.2 hct

/-- Claim C1 (counterexample to the literal statement): with two selected
time-steps whose `time` values coincide, the cell of `gC1` is masked at
time-step 0, yet the measurement list contains a record with id
`combine 0 0`, time `time[0]` and value `value[0][0][0]` — produced by
time-step 1 — so the claimed equivalence fails at `(t, y, x) = (0, 0, 0)`. -/
theorem measurement_iff_mask_counterexample :
    ¬ (((⟨combine 0 0, gC1.time 0, gC1.smi 0 0 0⟩ : MeasurementRecord ℚ)
          ∈ (extract gC1 2).data)
        ↔ gC1.mask 0 0 0 = false) := by decide

/-- Claim C1 (amended): provided the `time` variable takes distinct values at
distinct selected time-step indices, for every selected time-step `t` and
every cell `(y, x)` of the grid, the measurement list contains the record
with id `combine y x`, time `time[t]` and value `value[t][y][x]` if and only
if the validity mask at `(t, y, x)` is false. -/
theorem measurement_record_iff_not_masked (V : Type) (g : Grid V) (n t y x : Nat)
    (htime : ∀ t1, t1 < n → ∀ t2, t2 < n → g.time t1 = g.time t2 → t1 = t2)
    (ht : t < n) (hy : y < g.y_size) (hx : x < g.x_size) :
    ((⟨combine y x, g.time t, g.smi t y x⟩ : MeasurementRecord V) ∈ (extract g n).data)
      ↔ g.mask t y x = false := by
  rw [extract_data, mem_dataList]
  constructor
  · rintro ⟨i, hi, x', hx', y', hy', hm, heq⟩
    simp only [MeasurementRecord.mk.injEq] at heq
    obtain ⟨hid, htm, hvl⟩ := heq
    obtain ⟨hyy, hxx⟩ := combine_inj hid
    have hti : t = i := htime t ht i hi htm
    subst hyy
    subst hxx
    subst hti
    exact hm
  · intro hm
    exact ⟨t, ht, x, hx, y, hy, hm, rfl⟩

/-- Claim C1 witness: the amended equivalence evaluated on the concrete grid
`g6` with one selected time-step, at the unmasked cell `(0, 0)`. -/
theorem measurement_record_iff_not_masked_witness :
    ((⟨combine 0 0, g6.time 0, g6.smi 0 0 0⟩ : MeasurementRecord ℚ) ∈ (extract g6 1).data)
      ↔ g6.mask 0 0 0 = false :=
  measurement_record_iff_not_masked ℚ g6 1 0 0 0
    (by intro t1 h1 t2 h2 _; omega) (by decide) (by decide) (by decide)

/-- Claim C2: for every non-empty selection of time-steps, the geometry list
has length rows × columns, contains the record `{combine y x, lat[y][x],
lon[y][x]}` for every grid cell (masked or not), and equals the geometry
list produced when only the first time-step is selected — geometry records
are appended only while processing time-step 0, so the count does not depend
on how many time-steps are selected. -/
theorem geometry_complete_per_cell (V : Type) (g : Grid V) (n : Nat) (hn : 1 ≤ n) :
    (extract g n).data_geom.length = g.y_size * g.x_size ∧
    (∀ y, y < g.y_size → ∀ x, x < g.x_size →
      (⟨combine y x, g.lat y x, g.lon y x⟩ : GeomRecord V) ∈ (extract g n).data_geom) ∧
    (extract g n).data_geom = (extract g 1).data_geom := by
  rw [extract_geom g n, geomList_of_pos g n hn, extract_geom g 1, geomList_of_pos g 1 le_rfl]
  exact ⟨geomAll_length g, fun y hy x hx => mem_geomAll g y x hy hx, rfl⟩

/-- Claim C2 witness: the geometry property evaluated on the concrete 2×2
grid `g6` with one selected time-step. -/
theorem geometry_complete_per_cell_witness :
    (extract g6 1).data_geom.length = g6.y_size * g6.x_size ∧
    (∀ y, y < g6.y_size → ∀ x, x < g6.x_size →
      (⟨combine y x, g6.lat y x, g6.lon y x⟩ : GeomRecord ℚ) ∈ (extract g6 1).data_geom) ∧
    (extract g6 1).data_geom = (extract g6 1).data_geom :=
  geometry_complete_per_cell ℚ g6 1 (by decide)

/-- Claim C3 (counterexample to the literal statement): selecting an empty
time-step range on the 1×1 grid `gC1` yields an empty geometry list, not one
of length rows × columns = 1, because the geometry append lives inside the
time-step loop, which never runs. -/
theorem empty_selection_counterexample :
    ¬ ((extract gC1 0).data_geom.length = gC1.y_size * gC1.x_size ∧
        (extract gC1 0).data = []) := by decide

/-- Claim C3 (amended): when the selected time-step range is empty, the
extraction produces an empty geometry list and an empty measurement list. -/
theorem empty_selection_extract_empty (V : Type) (g : Grid V) :
    (extract g 0).data_geom = [] ∧ (extract g 0).data = [] :=
  ⟨rfl, rfl⟩

/-- Claim C4: every record of the measurement list has an id equal to the id
of exactly one record of the geometry list produced by the same run. -/
theorem measurement_id_matches_unique_geometry (V : Type) (g : Grid V) (n : Nat)
    (r : MeasurementRecord V) (hr : r ∈ (extract g n).data) :
    ((extract g n).data_geom.filter (fun gr => gr.id = r.id)).length = 1 := by
  rw [extract_data, mem_dataList] at hr
  obtain ⟨i, hi, x, hx, y, hy, hm, hre⟩ := hr
  have hn : 1 ≤ n := by omega
  rw [extract_geom, geomList_of_pos g n hn]
  have hid : r.id = combine y x := by rw [hre]
  have hmem : r.id ∈ (geomAll g).map (fun gr => gr.id) := by
    rw [hid]
    exact List.mem_map.mpr ⟨⟨combine y x, g.lat y x, g.lon y x⟩, mem_geomAll g y x hy hx, rfl⟩
  have hcount : (((geomAll g).map (fun gr => gr.id)).filter (fun s => s = r.id)).length = 1 :=
    length_filter_eq_of_nodup (geomAll_ids_nodup g) hmem
  calc ((geomAll g).filter (fun gr => gr.id = r.id)).length
      = (((geomAll g).filter (fun gr => gr.id = r.id)).map (fun gr => gr.id)).length :=
        (List.length_map _ _).symm
    _ = (((geomAll g).map (fun gr => gr.id)).filter (fun s => s = r.id)).length := by
        rw [List.filter_map]
        rfl
    _ = 1 := hcount

/-- Claim C4 witness: referential completeness evaluated on the concrete grid
`g6` for the measurement record of cell `(0, 0)`. -/
theorem measurement_id_matches_unique_geometry_witness :
    ((extract g6 1).data_geom.filter
        (fun gr => gr.id = (⟨"0-0", (100 : ℚ), 1⟩ : MeasurementRecord ℚ).id)).length = 1 :=
  measurement_id_matches_unique_geometry ℚ g6 1 ⟨"0-0", 100, 1⟩ (by decide)

/-- Claim C5: the cell identifier `combine` is injective — two distinct cells
with non-negative indices always get different identifier strings. -/
theorem cell_id_injective (y1 x1 y2 x2 : Nat) (h : (y1, x1) ≠ (y2, x2)) :
    combine y1 x1 ≠ combine y2 x2 := by
  intro hc
  obtain ⟨hy, hx⟩ := combine_inj hc
  exact h (by rw [hy, hx])

/-- Claim C5 witness: the identifier of cell `(0, 1)` differs from the
identifier of cell `(1, 0)`. -/
theorem cell_id_injective_witness : combine 0 1 ≠ combine 1 0 :=
  cell_id_injective 0 1 1 0 (by decide)

/-- Claim C6: on the 2×2 scenario grid `g6` (single time-step valued 100,
`SMI = [[1.0, masked], [2.0, 3.0]]`), the extraction yields exactly 4
geometry records with ids `0-0`, `0-1`, `1-0`, `1-1` (listed in the
column-major iteration order of the loop) and exactly 3 measurement records,
one per unmasked cell and none for `0-1`, each with time 100 and the
corresponding value. -/
theorem scenario_2x2_extraction :
    (extract g6 1).data_geom.length = 4 ∧
    (extract g6 1).data_geom.map (fun r => r.id) = ["0-0", "1-0", "0-1", "1-1"] ∧
    (extract g6 1).data
      = [⟨"0-0", 100, 1.0⟩, ⟨"1-0", 100, 2.0⟩, ⟨"1-1", 100, 3.0⟩] := by
  have e1 : (1.0 : ℚ) = 1 := by norm_num
  have e2 : (2.0 : ℚ) = 2 := by norm_num
  have e3 : (3.0 : ℚ) = 3 := by norm_num
  rw [e1, e2, e3]
  exact ⟨by decide, by decide, by decide⟩

/-- Claim C7: the table writer creates exactly two tables — `Data.Data` with
columns `(ID: text, Time: double, Value: double)` and `Geom.Geom` with
columns `(ID: text, Latitude: double, Longitude: double)` — and the rows of
each table are exactly the records of the matching input sequence. -/
theorem writer_creates_two_tables (V : Type) (data : List (MeasurementRecord V))
    (data_geom : List (GeomRecord V)) :
    (writeHyper data data_geom).tables.length = 2 ∧
    (writeHyper data data_geom).tables =
      [⟨⟨("Data", "Data"),
          [⟨"ID", SqlType.text⟩, ⟨"Time", SqlType.double⟩, ⟨"Value", SqlType.double⟩]⟩,
        data.map measRow⟩,
       ⟨⟨("Geom", "Geom"),
          [⟨"ID", SqlType.text⟩, ⟨"Latitude", SqlType.double⟩, ⟨"Longitude", SqlType.double⟩]⟩,
        data_geom.map geomRow⟩] :=
  ⟨rfl, rfl⟩

/-- Claim C8: when the read stage fails, the run aborts with a
`FileFormatError` before the write stage runs, so a pre-existing output file
is left unchanged. -/
theorem read_failure_preserves_output (V : Type) (n : Nat) (prev : Option (HyperDatabase V)) :
    runPipeline (ReadResult.err : ReadResult V) n prev
      = (Except.error PipelineError.fileFormatError, prev) :=
  rfl

/-- Claim C9: running the pipeline twice with the same input and output path
yields the same output file state and the same result as running it once —
the writer replaces any existing destination, so nothing accumulates. -/
theorem pipeline_idempotent (V : Type) (input : ReadResult V) (n : Nat)
    (prev : Option (HyperDatabase V)) :
    (runPipeline input n (runPipeline input n prev).2).2 = (runPipeline input n prev).2 ∧
    (runPipeline input n (runPipeline input n prev).2).1 = (runPipeline input n prev).1 := by
  cases input <;> exact ⟨rfl, rfl⟩

/-- Claim C10: the derived output path is the input path with its final three
characters removed and `.hyper` appended; in particular an input ending in
`.nc` maps to the same name with `.hyper`, and the suffix is never checked —
the last three characters are dropped whatever they are. -/
theorem output_path_drops_last_three_chars :
    (∀ s : String, (outputHyperPath s).data
        = s.data.dropLast.dropLast.dropLast ++ (".hyper" : String).data) ∧
    (∀ base : String, outputHyperPath (base ++ ".nc") = base ++ ".hyper") := by
  constructor
  · intro s
    have hdl : (s.data).dropLast.dropLast.dropLast = s.data.take (s.data.length - 3) := by
      simp only [List.dropLast_eq_take, List.take_take, List.length_take]
      congr 1
      omega
    rw [hdl]
    simp [outputHyperPath, pySliceDropLast, String.data_append]
  · intro base
    have hd : (base ++ ".nc").data = base.data ++ ['.', 'n', 'c'] := by
      rw [String.data_append]
    have htake : (base.data ++ ['.', 'n', 'c']).take
        ((base.data ++ ['.', 'n', 'c']).length - 3) = base.data := by
      have hlen : (base.data ++ ['.', 'n', 'c']).length - 3 = base.data.length := by
        simp
      rw [hlen]
      simp
    apply String.ext
    simp [outputHyperPath, pySliceDropLast, String.data_append, hd, htake]
